import Mathlib

/-!
# A verification of the `fsa` virtual-filesystem crate

This file gives a shallow embedding, in Lean 4, of the node model and the
buffered-I/O layer of the `fsa` crate (files `src/lib.rs`, `src/error.rs`,
`src/physical.rs`, `src/zip.rs`), together with theorems settling the frozen
claims C1..C10 about that code.

Modelling conventions:
* Bytes are `Nat` (their numeric value; no arithmetic on bytes occurs in the
  source, so the 0..255 range is irrelevant to the claims).
* Rust `usize` fields become `Nat`; the `i64 seek_offset` becomes `Int`, with
  the `as i64` / `as u64` casts modelled explicitly by `i64wrap` / `Int.toNat`.
* `Vec<u8>` becomes a `List Nat` (its initialized contents, i.e. `Vec::len`
  elements) together with a separate `bufCap : Nat` tracking `Vec::capacity`;
  `Vec::with_capacity n` is the empty list with `bufCap = n`, and
  `Vec::resize(n, 0)` changes the list's length to `n` and grows the capacity.
* `HashMap<String, _>` child caches become lookup functions
  `String → Option _`.
* Fallible Rust functions return `Except`; a Rust `unimplemented!()` /
  `todo!()` placeholder — which panics, it does not return — is modelled by
  the dedicated outcome `CallResult.panics`.
-/

namespace Fsa

/-! ## Error taxonomy (`src/error.rs`) -/

/-- The crate-level error enum `FsError` (`src/error.rs`, lines 6–22).
The `IoError` and `ZipError` payloads are opaque to every claim; we keep them
as a kind/message pair resp. a message string. -/
inductive FsError where
  | NotAFile (path : String)
  | NotADirectory (path : String)
  | IoError (msg : String)
  | ZipError (msg : String)
  | FileNotPresent (containing : String) (name : String)
  | FileNotOpen (name : String)
  | Generic (msg : String)
  deriving DecidableEq, Repr

/-- Kind of a `std::io::Error` as far as the source constructs them
(`zip.rs`, line 260 builds `ErrorKind::InvalidInput`). -/
inductive IoErrorKind where
  | InvalidInput
  | Other
  deriving DecidableEq, Repr

/-- A `std::io::Error` as constructed by the source: a kind plus a message. -/
structure IoErr where
  kind : IoErrorKind
  msg : String
  deriving DecidableEq, Repr

/-- Outcome of calling a Rust function that may hit an `unimplemented!()` or
`todo!()` placeholder: either a normal return value (which may itself be an
`Ok`/`Err` result) or a panic, which unwinds/aborts and never returns a value
to the caller. -/
inductive CallResult (α : Type) where
  | ret (a : α)
  | panics
  deriving DecidableEq, Repr

/-! ## Full paths (`get_full_path` of every node kind)

The parent chain of a node is finite and upward-only: directories hold their
children behind shared references, but for path resolution only the chain of
`parent` references matters, so we embed a node as its own name plus the
parent chain.  `PathBuf::join` with single-segment names appends the platform
separator (modelled as `/`) and the segment. -/

/-- `PathBuf::join(base, segment)` for the single-segment names the crate
uses: append a separator and the segment. -/
def pathJoin (base : String) (segment : String) : String :=
  base ++ "/" ++ segment

/-- A filesystem node as seen by `get_full_path`: its own name and its parent
chain, tagged with the concrete backend type implementing the call.
`physDirRoot` is a `PhysicalDirectory` with `parent == None` (the only
parentless constructor in the source: `PhysicalFile`, `ZipDirectory` and
`ZipFile` all require a parent). -/
inductive Node where
  | physDirRoot (name : String)
  | physDir (name : String) (parent : Node)
  | physFile (name : String) (parent : Node)
  | zipDir (name : String) (parent : Node)
  | zipFile (name : String) (parent : Node)
  deriving DecidableEq, Repr

/-- `get_full_path` exactly as each backend implements it:
* `PhysicalDirectory::get_full_path` (`physical.rs`, lines 141–147): parent's
  full path joined with own name, or the own name for a parentless root;
* `PhysicalFile::get_full_path` (`physical.rs`, lines 279–281): parent's full
  path joined with own name;
* `ZipDirectory::get_full_path` (`zip.rs`, lines 146–148): parent's full path
  joined with own name;
* `ZipFile::get_full_path` (`zip.rs`, lines 314–316): the parent's full path
  only — the source does **not** join the file's own name. -/
def Node.get_full_path : Node → String
  | .physDirRoot name => name
  | .physDir name parent => pathJoin parent.get_full_path name
  | .physFile name parent => pathJoin parent.get_full_path name
  | .zipDir name parent => pathJoin parent.get_full_path name
  | .zipFile _name parent => parent.get_full_path

/-- Modelled from the spec's words (for comparison with the source-derived
`Node.get_full_path`): "a node's full path always equals its parent's full
path joined with its own name", and a parentless root's full path is its own
name. -/
def Node.spec_full_path : Node → String
  | .physDirRoot name => name
  | .physDir name parent => pathJoin parent.spec_full_path name
  | .physFile name parent => pathJoin parent.spec_full_path name
  | .zipDir name parent => pathJoin parent.spec_full_path name
  | .zipFile name parent => pathJoin parent.spec_full_path name

/-- A concrete archive entry node: file `a.txt` inside the archive mounted at
`/tmp/ar.zip`, whose physical parent directory is the root `/tmp`. -/
def exampleZipEntry : Node :=
  .zipFile "a.txt" (.zipDir "ar.zip" (.physDirRoot "/tmp"))

/-! ## Unsupported operations (`unimplemented!()` / `todo!()` placeholders)

Each of the following source functions consists solely of a placeholder macro
that raises a panic; none of them constructs or returns an error value. -/

/-- `impl Write for ZipFile`, `fn write` (`zip.rs`, lines 268–270):
`unimplemented!()`. -/
def ZipFileCalls.write (_buf : List Nat) : CallResult (Except IoErr Nat) :=
  .panics

/-- `impl Write for ZipFile`, `fn flush` (`zip.rs`, lines 272–274):
`unimplemented!()`. -/
def ZipFileCalls.flush : CallResult (Except IoErr Unit) :=
  .panics

/-- `ZipFile::rename` (`zip.rs`, lines 306–308): `unimplemented!()`. -/
def ZipFileCalls.rename (_name : String) : CallResult (Except FsError Unit) :=
  .panics

/-- `ZipDirectory::new_file` (`zip.rs`, lines 181–183): `unimplemented!()`. -/
def ZipDirectoryCalls.new_file (_name : String) (_buffer_size : Nat) :
    CallResult (Except FsError Unit) :=
  .panics

/-- `ZipDirectory::new_dir` (`zip.rs`, lines 185–187): `unimplemented!()`. -/
def ZipDirectoryCalls.new_dir (_name : String) :
    CallResult (Except FsError Unit) :=
  .panics

/-- The provided default body of `Directory::scan` (`lib.rs`, line 90):
`unimplemented!()`. -/
def DirectoryCalls.scan_default : CallResult (Except FsError Unit) :=
  .panics

/-- `PhysicalFile::size` (`physical.rs`, lines 259–261): `todo!()` — it
panics instead of computing the on-disk length. -/
def PhysicalFileCalls.size : CallResult (Except FsError Nat) :=
  .panics

/-! ## The physical buffered file (`PhysicalFile`, `physical.rs`)

State: `buffer`/`bufCap` model the `Vec<u8>` (initialized contents plus
allocated capacity), `buf_filled` and `cursor` are the window bounds, and
`fileHandle` models `file : Option<fs::File>` as the open handle's read/write
position into the on-disk content.  The on-disk content itself (`disk`) is
threaded separately so that `close`/`open` round trips keep it.

We charitably assume the on-disk file exists and opening it succeeds (in the
source `open` uses `fs::File::open`, which fails if the path is missing and
yields a read-only handle; both facts only make the code's behaviour worse
than this model, never better). -/

/-- In-memory state of a `PhysicalFile` node (`physical.rs`, lines 23–33). -/
structure PhysicalFile where
  buffer : List Nat
  bufCap : Nat
  buf_filled : Nat
  cursor : Nat
  fileHandle : Option Nat
  deriving DecidableEq, Repr

namespace PhysicalFile

/-- `PhysicalFile::new(name, parent, buffer_size)` (`physical.rs`, lines
80–97): `Vec::with_capacity(buffer_size)` allocates capacity but **length
zero**; no handle; window empty. -/
def new (buffer_size : Nat) : PhysicalFile :=
  { buffer := [], bufCap := buffer_size, buf_filled := 0, cursor := 0,
    fileHandle := none }

/-- Overwrite the first `n` initialized bytes of `dst` with the first `n`
bytes of `src` (the `copy_from_slice` pattern used by `write` and by the OS
`read` into the buffer); callers guarantee `n ≤ dst.length` and
`n ≤ src.length`. -/
def overwritePrefix (dst src : List Nat) (n : Nat) : List Nat :=
  src.take n ++ dst.drop n

/-- `File::close for PhysicalFile` (`physical.rs`, lines 300–304): drop the
handle and reset the window; buffer contents and capacity untouched. -/
def close (f : PhysicalFile) : PhysicalFile :=
  { f with fileHandle := none, buf_filled := 0, cursor := 0 }

/-- `File::open for PhysicalFile` (`physical.rs`, lines 287–294): close any
stale handle first, then acquire a fresh handle positioned at byte 0. -/
def openFile (f : PhysicalFile) : PhysicalFile :=
  let f := if f.fileHandle.isSome then close f else f
  { f with fileHandle := some 0 }

/-- `File::is_open for PhysicalFile` (`physical.rs`, lines 296–298): the
handle is present (the `metadata().is_ok()` validity probe always holds in
this model). -/
def is_open (f : PhysicalFile) : Bool :=
  f.fileHandle.isSome

/-- `File::set_buffer_size for PhysicalFile` (`physical.rs`, lines 283–285):
`Vec::resize(size, 0)` sets the length to `size` (padding with zeros) and
can only grow the capacity. -/
def set_buffer_size (f : PhysicalFile) (size : Nat) : PhysicalFile :=
  { f with
      buffer := f.buffer.take size ++ List.replicate (size - f.buffer.length) 0,
      bufCap := max f.bufCap size }

/-- First phase of `PhysicalFile::fill_buffer` (`physical.rs`, lines
108–114): if the file is not open, open it, and — one-shot, only when the
buffer's allocated capacity is zero — `Vec::resize` it to the file's current
on-disk byte length. -/
def ensureOpenSized (f : PhysicalFile) (disk : List Nat) : PhysicalFile :=
  if f.is_open then f
  else
    let fo := openFile f
    if fo.bufCap = 0 then
      { fo with buffer := List.replicate disk.length 0,
                bufCap := max fo.bufCap disk.length }
    else fo

/-- Second phase of `PhysicalFile::fill_buffer` (`physical.rs`, lines
116–119): reset the cursor and read one chunk from the handle's position
into the buffer, recording the count as `buf_filled` and advancing the
handle. -/
def fillFrom (g : PhysicalFile) (disk : List Nat) : PhysicalFile :=
  match g.fileHandle with
  | none => g
  | some pos =>
      let n := min g.buffer.length (disk.length - pos)
      { g with
          cursor := 0,
          buf_filled := n,
          buffer := overwritePrefix g.buffer (disk.drop pos) n,
          fileHandle := some (pos + n) }

/-- `PhysicalFile::fill_buffer` (`physical.rs`, lines 107–120): the two
phases above composed. -/
def fill_buffer (f : PhysicalFile) (disk : List Nat) : PhysicalFile :=
  fillFrom (ensureOpenSized f disk) disk

/-- `impl Read for PhysicalFile`, `fn read` (`physical.rs`, lines 184–198):
refill when the window is exhausted, then serve up to `k` bytes out of
`[cursor, buf_filled)` and advance the cursor.  Returns the new state and the
bytes handed to the caller. -/
def readBytes (f : PhysicalFile) (disk : List Nat) (k : Nat) :
    PhysicalFile × List Nat :=
  let f := if f.buf_filled ≤ f.cursor then fill_buffer f disk else f
  let byte_count := min (f.buf_filled - f.cursor) k
  let out := (f.buffer.drop f.cursor).take byte_count
  ({ f with cursor := f.cursor + byte_count }, out)

/-- `impl BufRead for PhysicalFile`, `fn fill_buf` (`physical.rs`, lines
201–207): refill when exhausted; the borrowed slice is not needed for any
claim, only the state change is modelled. -/
def fill_buf (f : PhysicalFile) (disk : List Nat) : PhysicalFile :=
  if f.buf_filled ≤ f.cursor then fill_buffer f disk else f

/-- `impl BufRead for PhysicalFile`, `fn consume` (`physical.rs`, lines
209–211): `cursor = min(cursor + amt, buf_filled)`. -/
def consume (f : PhysicalFile) (amt : Nat) : PhysicalFile :=
  { f with cursor := min (f.cursor + amt) f.buf_filled }

/-- `impl Write for PhysicalFile`, `fn write` (`physical.rs`, lines 221–229):
reset the window, copy `min(buffer.len(), buf.len())` bytes of the input into
the buffer, and return that count (`Ok(byte_count)`). -/
def write (f : PhysicalFile) (buf : List Nat) : PhysicalFile × Nat :=
  let byte_count := min f.buffer.length buf.length
  ({ f with buf_filled := 0, cursor := 0,
            buffer := overwritePrefix f.buffer buf byte_count },
   byte_count)

/-- `impl Write for PhysicalFile`, `fn flush` (`physical.rs`, lines 231–239):
re-open the file (fresh handle at position 0) and write the **entire** buffer
through the handle.  In the source the handle comes from the read-only
`fs::File::open`, so the OS write would fail; we charitably model it as
succeeding and replacing the on-disk prefix. -/
def flush (f : PhysicalFile) (disk : List Nat) : PhysicalFile × List Nat :=
  let f := openFile f
  ({ f with fileHandle := some f.buffer.length },
   f.buffer ++ disk.drop f.buffer.length)

/-- `impl Seek for PhysicalFile` (`physical.rs`, lines 214–218): delegates to
the OS handle (panicking if the file is not open — modelled as no change);
no node field other than the handle's position is touched. -/
def seekOs (f : PhysicalFile) (newPos : Nat) : PhysicalFile :=
  match f.fileHandle with
  | none => f
  | some _ => { f with fileHandle := some newPos }

end PhysicalFile

/-- One operation of the `File` contract on a `PhysicalFile`, paired with the
oracle data the backend supplies (read sizes, seek targets, written bytes). -/
inductive POp where
  | opOpen
  | opClose
  | opRead (k : Nat)
  | opFillBuf
  | opConsume (amt : Nat)
  | opWrite (buf : List Nat)
  | opFlush
  | opSeek (newPos : Nat)
  | opSetBufferSize (size : Nat)
  deriving DecidableEq, Repr

/-- Apply one operation to the node state paired with the on-disk content. -/
def stepP : PhysicalFile × List Nat → POp → PhysicalFile × List Nat
  | (f, disk), .opOpen => (f.openFile, disk)
  | (f, disk), .opClose => (f.close, disk)
  | (f, disk), .opRead k => ((f.readBytes disk k).1, disk)
  | (f, disk), .opFillBuf => (f.fill_buf disk, disk)
  | (f, disk), .opConsume amt => (f.consume amt, disk)
  | (f, disk), .opWrite buf => ((f.write buf).1, disk)
  | (f, disk), .opFlush => f.flush disk
  | (f, disk), .opSeek newPos => (f.seekOs newPos, disk)
  | (f, disk), .opSetBufferSize size => (f.set_buffer_size size, disk)

/-- Run a sequence of operations. -/
def runP (s : PhysicalFile × List Nat) (ops : List POp) :
    PhysicalFile × List Nat :=
  ops.foldl stepP s

/-- The buffered-window invariant of the data model for a physical file:
`cursor ≤ buf_filled ≤ capacity` (with `0 ≤ cursor` holding by the `Nat`
type), together with the `Vec` fact `length ≤ capacity` that sustains it. -/
def PFileInv (f : PhysicalFile) : Prop :=
  f.cursor ≤ f.buf_filled ∧ f.buf_filled ≤ f.bufCap ∧
    f.buffer.length ≤ f.bufCap

instance (f : PhysicalFile) : Decidable (PFileInv f) := by
  unfold PFileInv; infer_instance

/-! ## The archive-entry buffered file (`ZipFile`, `zip.rs`)

An archive entry is read through a forward-only decompression stream; the
node keeps a logical `seek_offset : i64` and re-derives content from it.  We
model the entry's decompressed bytes (`entryContent`) as part of the node
state (in the source they are reachable through `parent → archive →
file_index`); the entry's recorded decompressed size, as `file.size()`
returns it from the central directory, is its length. -/

/-- Wrap an unbounded integer into the `i64` range, as Rust's `as i64` cast
and (release-mode) wrapping arithmetic do. -/
def i64wrap (x : Int) : Int :=
  (x + 2 ^ 63) % 2 ^ 64 - 2 ^ 63

/-- `std::io::SeekFrom`: `Start` carries a `u64` (a `Nat` below `2^64`),
`End` and `Current` carry an `i64`. -/
inductive SeekFromM where
  | start (k : Nat)
  | fromEnd (p : Int)
  | current (p : Int)
  deriving DecidableEq, Repr

/-- In-memory state of a `ZipFile` node (`zip.rs`, lines 33–44). -/
structure ZipFile where
  buffer : List Nat
  bufCap : Nat
  buf_filled : Nat
  cursor : Nat
  seek_offset : Int
  entryContent : List Nat
  deriving DecidableEq, Repr

namespace ZipFile

/-- `ZipFile::new(name, parent, buffer_size)` (`zip.rs`, lines 86–108):
`Vec::with_capacity(buffer_size)` (length zero), `seek_offset = 0`, empty
window. -/
def new (buffer_size : Nat) (entryContent : List Nat) : ZipFile :=
  { buffer := [], bufCap := buffer_size, buf_filled := 0, cursor := 0,
    seek_offset := 0, entryContent }

/-- `ZipFile::fill_buffer` (`zip.rs`, lines 114–125): re-open the entry from
the start, `seek_relative(seek_offset)` (an error — leaving the state
untouched — when the offset is negative), read one chunk into the buffer,
advance `seek_offset` by the count read, and reset the cursor. -/
def fill_buffer (z : ZipFile) : ZipFile :=
  if z.seek_offset < 0 then z
  else
    let pos := z.seek_offset.toNat
    let n := min z.buffer.length (z.entryContent.length - pos)
    { z with
        buf_filled := n,
        seek_offset := z.seek_offset + n,
        cursor := 0,
        buffer := PhysicalFile.overwritePrefix z.buffer (z.entryContent.drop pos) n }

/-- `impl Read for ZipFile`, `fn read` (`zip.rs`, lines 212–226): same
buffered serving loop as the physical backend. -/
def readBytes (z : ZipFile) (k : Nat) : ZipFile × List Nat :=
  let z := if z.buf_filled ≤ z.cursor then fill_buffer z else z
  let byte_count := min (z.buf_filled - z.cursor) k
  let out := (z.buffer.drop z.cursor).take byte_count
  ({ z with cursor := z.cursor + byte_count }, out)

/-- `impl BufRead for ZipFile`, `fn fill_buf` (`zip.rs`, lines 229–235). -/
def fill_buf (z : ZipFile) : ZipFile :=
  if z.buf_filled ≤ z.cursor then fill_buffer z else z

/-- `impl BufRead for ZipFile`, `fn consume` (`zip.rs`, lines 237–239). -/
def consume (z : ZipFile) (amt : Nat) : ZipFile :=
  { z with cursor := min (z.cursor + amt) z.buf_filled }

/-- The error the source builds for a negative resulting offset (`zip.rs`,
line 260). -/
def invalidSeekErr : IoErr :=
  { kind := .InvalidInput, msg := "Invalid seek offset" }

/-- `impl Seek for ZipFile` (`zip.rs`, lines 242–265): zero the window, then
update only `seek_offset` — `Start(k)` stores `k as i64`, `End(p)` stores
`size as i64 + p`, `Current(p)` adds `p` — and fail with the invalid-seek
error when the stored offset is negative, else return it `as u64`. -/
def seek (z : ZipFile) (pos : SeekFromM) : ZipFile × Except IoErr Nat :=
  let z := { z with buf_filled := 0, cursor := 0 }
  let off : Int :=
    match pos with
    | .start k => i64wrap k
    | .fromEnd p => i64wrap (i64wrap z.entryContent.length + p)
    | .current p => i64wrap (z.seek_offset + p)
  let z := { z with seek_offset := off }
  if off < 0 then (z, .error invalidSeekErr)
  else (z, .ok off.toNat)

/-- The offset value `seek` stores for a given `SeekFrom` argument (read off
the `match` in `zip.rs`, lines 247–257); a derived accessor used to state
lemmas about `seek`. -/
def seekTarget (z : ZipFile) (pos : SeekFromM) : Int :=
  match pos with
  | .start k => i64wrap k
  | .fromEnd p => i64wrap (i64wrap z.entryContent.length + p)
  | .current p => i64wrap (z.seek_offset + p)

/-- `File::size for ZipFile` (`zip.rs`, lines 294–300): the entry's recorded
decompressed length straight from the archive's central directory
(`by_index_raw(file_index).size()`), touching no buffered state. -/
def size (z : ZipFile) : CallResult (Except FsError Nat) :=
  .ret (.ok z.entryContent.length)

/-- `File::set_buffer_size for ZipFile` (`zip.rs`, lines 318–320): same
`Vec::resize(size, 0)` as the physical backend. -/
def set_buffer_size (z : ZipFile) (size : Nat) : ZipFile :=
  { z with
      buffer := z.buffer.take size ++ List.replicate (size - z.buffer.length) 0,
      bufCap := max z.bufCap size }

/-- `File::open for ZipFile` (`zip.rs`, lines 322–324): `Ok(())`, no state
change. -/
def openFile (z : ZipFile) : ZipFile := z

/-- `File::close for ZipFile` (`zip.rs`, line 330): empty body, no state
change. -/
def close (z : ZipFile) : ZipFile := z

end ZipFile

/-- One operation of the `File` contract on a `ZipFile`.  `write`, `flush`
and `rename` are absent: on this backend they hit `unimplemented!()` (see
`ZipFileCalls`), so no post-state exists for them to appear in an executed
sequence. -/
inductive ZOp where
  | opOpen
  | opClose
  | opRead (k : Nat)
  | opFillBuf
  | opConsume (amt : Nat)
  | opSeek (pos : SeekFromM)
  | opSetBufferSize (size : Nat)
  deriving DecidableEq, Repr

/-- Apply one operation to a `ZipFile` state. -/
def stepZ : ZipFile → ZOp → ZipFile
  | z, .opOpen => z.openFile
  | z, .opClose => z.close
  | z, .opRead k => (z.readBytes k).1
  | z, .opFillBuf => z.fill_buf
  | z, .opConsume amt => z.consume amt
  | z, .opSeek pos => (z.seek pos).1
  | z, .opSetBufferSize size => z.set_buffer_size size

/-- Run a sequence of operations on a `ZipFile`. -/
def runZ (z : ZipFile) (ops : List ZOp) : ZipFile :=
  ops.foldl stepZ z

/-- The buffered-window invariant for an archive file node. -/
def ZFileInv (z : ZipFile) : Prop :=
  z.cursor ≤ z.buf_filled ∧ z.buf_filled ≤ z.bufCap ∧
    z.buffer.length ≤ z.bufCap

instance (z : ZipFile) : Decidable (ZFileInv z) := by
  unfold ZFileInv; infer_instance

/-! ## Directories, child caches and `scan`

The `children: HashMap<String, _>` cache is modelled by its lookup function
`String → Option _`.  A cached child node is represented by the constructor
data the source passes when it builds the child (`PhysicalDirectory::new` /
`PhysicalFile::new` / `ZipFile::new`): its name plus, for files, the buffer
size; the child's own mutable state is fresh and its `parent` back-reference
is the inserting directory, so neither needs to be stored (this also breaks
the parent↔child reference cycle, as §9 of the crate's design notes
suggests).

Backend listings are fallible: `fs::read_dir` can fail outright and each
yielded `DirEntry` (or each `by_index` call on an archive) can fail
individually, in which case `scan` propagates the error with `?` *before*
setting `scanned = true`.  A listing is therefore a `List (Except Unit ε)`
of per-entry outcomes, reproducible across calls (the OS/archive state is
held fixed). -/

/-- A cache: lookup function from child name to cached object. -/
def Cache (α : Type) := String → Option α

/-- The empty cache (a fresh `HashMap::new()`). -/
def Cache.empty {α : Type} : Cache α := fun _ => none

/-- `HashMap::insert`: update the lookup function at one key. -/
def Cache.insert {α : Type} (c : Cache α) (k : String) (v : α) : Cache α :=
  fun k' => if k' = k then some v else c k'

/-- Process a fallible backend listing in order, inserting the write `w e`
of each successful entry into the cache and stopping at the first failed
entry (the `?` operator); returns the final cache and whether the whole
listing was consumed. -/
def applyEntries {ε α : Type} (w : ε → Option (String × α)) :
    List (Except Unit ε) → Cache α → Cache α × Bool
  | [], c => (c, true)
  | .error _ :: _, c => (c, false)
  | .ok e :: rest, c =>
      match w e with
      | some (k, v) => applyEntries w rest (c.insert k v)
      | none => applyEntries w rest c

/-- The last successful write a listing makes to key `k` before its first
failed entry, if any. -/
def lastWrite {ε α : Type} (w : ε → Option (String × α)) :
    List (Except Unit ε) → String → Option α
  | [], _ => none
  | .error _ :: _, _ => none
  | .ok e :: rest, k =>
      match lastWrite w rest k with
      | some v => some v
      | none =>
          match w e with
          | some (k', v) => if k = k' then some v else none
          | none => none

/-- A cached child of a `PhysicalDirectory`: the constructor data of the
node `scan` builds for it (`physical.rs`, lines 61–69). -/
inductive FsObjR where
  | dirObj (name : String)
  | fileObj (name : String) (buffer_size : Nat)
  deriving DecidableEq, Repr

/-- A cached child of a `ZipDirectory`: the constructor data of the
`ZipFile::new(name, handle, 512)` node `scan` builds (`zip.rs`, line 200). -/
structure ZipChildRef where
  name : String
  buffer_size : Nat
  deriving DecidableEq, Repr

/-- Classification of one `fs::read_dir` entry (`item.file_type()`):
directory, regular file, or neither (e.g. a symlink — skipped by `scan`). -/
inductive PEntryKind where
  | dirE
  | fileE
  | otherE
  deriving DecidableEq, Repr

/-- One successfully yielded `fs::read_dir` entry. -/
structure PEntry where
  name : String
  kind : PEntryKind
  deriving DecidableEq, Repr

/-- The cache write `PhysicalDirectory::scan` performs for one listed entry
(`physical.rs`, lines 60–69): subdirectories become `PhysicalDirectory`
children, regular files become `PhysicalFile` children with buffer size 0,
anything else is skipped. -/
def pEntryWrite : PEntry → Option (String × FsObjR)
  | ⟨n, .dirE⟩ => some (n, .dirObj n)
  | ⟨n, .fileE⟩ => some (n, .fileObj n 0)
  | ⟨_, .otherE⟩ => none

/-- The OS state a `PhysicalDirectory` scans against: whether a directory is
present at its full path, and the (reproducible) outcome of listing it. -/
structure OsDir where
  dirExists : Bool
  listing : Except Unit (List (Except Unit PEntry))

/-- In-memory state of a `PhysicalDirectory` node (`physical.rs`, lines
13–21): name/parent chain, child cache, `scanned` flag. -/
structure PhysicalDirectory where
  node : Node
  children : Cache FsObjR
  scanned : Bool

namespace PhysicalDirectory

/-- `PhysicalDirectory::new` (`physical.rs`, lines 36–51): empty cache,
`scanned = false`. -/
def new (node : Node) : PhysicalDirectory :=
  { node, children := Cache.empty, scanned := false }

/-- `PhysicalDirectory::scan` (`physical.rs`, lines 53–76), returning the
new state, the call's success, and how many times the backend listing
(`fs::read_dir`) was invoked during the call.  The guard is
`!scanned && exists`; on a listing failure the error propagates with `?`
before `scanned` is set. -/
def scan (d : PhysicalDirectory) (os : OsDir) :
    PhysicalDirectory × Bool × Nat :=
  if !d.scanned && os.dirExists then
    match os.listing with
    | .error _ => (d, false, 1)
    | .ok items =>
        let res := applyEntries pEntryWrite items d.children
        ({ d with children := res.1, scanned := res.2 }, res.2, 1)
  else (d, true, 0)

/-- `Directory::get_child for PhysicalDirectory` (`physical.rs`, lines
159–165): answer from the cache only; a miss is the `FileNotPresent` error
carrying this directory's full path and the requested name. -/
def get_child (d : PhysicalDirectory) (name : String) :
    Except FsError FsObjR :=
  match d.children name with
  | some child => .ok child
  | none => .error (.FileNotPresent d.node.get_full_path name)

/-- `Directory::has_child for PhysicalDirectory` (`physical.rs`, lines
167–169): `Ok(children.contains_key(name))`, cache only. -/
def has_child (d : PhysicalDirectory) (name : String) :
    Except FsError Bool :=
  .ok (d.children name).isSome

end PhysicalDirectory

/-- One archive entry as `by_index` yields it: its name and whether it is a
file-like entry (`file.is_file()`). -/
structure ZEntry where
  name : String
  isFile : Bool
  deriving DecidableEq, Repr

/-- The cache write `ZipDirectory::scan` performs for one archive entry
(`zip.rs`, lines 196–203): file entries become `ZipFile` children with
buffer size 512, directory-like entries are skipped. -/
def zEntryWrite : ZEntry → Option (String × ZipChildRef)
  | ⟨n, true⟩ => some (n, ⟨n, 512⟩)
  | ⟨_, false⟩ => none

/-- The archive state a `ZipDirectory` scans against: the result of
`self.exists()` (which probes the *zip file's* path with `is_dir()`), and
the per-index outcomes of `by_index(0..len)`. -/
structure ArchiveState where
  dirExists : Bool
  entries : List (Except Unit ZEntry)

/-- In-memory state of a `ZipDirectory` node (`zip.rs`, lines 22–31). -/
structure ZipDirectory where
  node : Node
  children : Cache ZipChildRef
  scanned : Bool

namespace ZipDirectory

/-- `ZipDirectory::new` (`zip.rs`, lines 47–78): empty cache,
`scanned = false`. -/
def new (node : Node) : ZipDirectory :=
  { node, children := Cache.empty, scanned := false }

/-- `ZipDirectory::scan` (`zip.rs`, lines 189–209), returning the new state,
the call's success, and how many times the archive entry enumeration (the
`by_index` loop) was invoked during the call.  Same guard and same
error-before-`scanned` shape as the physical backend. -/
def scan (d : ZipDirectory) (ar : ArchiveState) :
    ZipDirectory × Bool × Nat :=
  if !d.scanned && ar.dirExists then
    let res := applyEntries zEntryWrite ar.entries d.children
    ({ d with children := res.1, scanned := res.2 }, res.2, 1)
  else (d, true, 0)

/-- `Directory::get_child for ZipDirectory` (`zip.rs`, lines 168–175):
answer from the cache only; a miss is the `FileNotPresent` error carrying
this directory's full path and the requested name. -/
def get_child (d : ZipDirectory) (name : String) :
    Except FsError ZipChildRef :=
  match d.children name with
  | some child => .ok child
  | none => .error (.FileNotPresent d.node.get_full_path name)

/-- `Directory::has_child for ZipDirectory` (`zip.rs`, lines 177–179). -/
def has_child (d : ZipDirectory) (name : String) : Except FsError Bool :=
  .ok (d.children name).isSome

end ZipDirectory

/-! ## Concrete scenarios used by the claims -/

/-- The spec's round-trip scenario on the physical backend: create a file
with buffer size `S` (empty on-disk content), `write` the bytes `B`, `flush`,
`close`, reopen, and `read` back `|B|` bytes. -/
def roundTrip (S : Nat) (B : List Nat) : List Nat :=
  let f := PhysicalFile.new S
  let disk : List Nat := []
  let f := (f.write B).1
  let (f, disk) := f.flush disk
  let f := f.close
  let f := f.openFile
  (f.readBytes disk B.length).2

/-- A freshly constructed archive entry node with default buffer size 512
over an entry whose decompressed content is the three bytes `[10, 20, 30]`
(so its recorded decompressed size is `L = 3`). -/
def exampleZipFile : ZipFile :=
  ZipFile.new 512 [10, 20, 30]

/-- A freshly constructed physical root directory at `/r`. -/
def exampleScanDir : PhysicalDirectory :=
  PhysicalDirectory.new (.physDirRoot "/r")

/-- An OS state where the directory exists but listing it fails (e.g. the
directory is present yet unreadable, so `fs::read_dir` returns `Err`). -/
def exampleFailingOs : OsDir :=
  { dirExists := true, listing := .error () }

/-- An OS state where the directory exists and listing it succeeds with one
regular file `a.txt`. -/
def exampleOkOs : OsDir :=
  { dirExists := true, listing := .ok [.ok ⟨"a.txt", .fileE⟩] }

/-! ## Helper lemmas -/

/-- Overwriting an `n`-byte prefix keeps the buffer's initialized length,
provided `n` is within both lists. -/
theorem overwritePrefix_length (dst src : List Nat) (n : Nat)
    (h1 : n ≤ dst.length) (h2 : n ≤ src.length) :
    (PhysicalFile.overwritePrefix dst src n).length = dst.length := by
  simp only [PhysicalFile.overwritePrefix, List.length_append,
    List.length_take, List.length_drop]
  omega

/-- `as i64` / wrapping `i64` arithmetic is the identity on the `i64`
range. -/
theorem i64wrap_of_range (x : Int) (h1 : -(2 ^ 63) ≤ x) (h2 : x < 2 ^ 63) :
    i64wrap x = x := by
  unfold i64wrap
  omega

/-- A `u64` value in the upper half wraps to a negative `i64`. -/
theorem i64wrap_of_hi (k : Nat) (h1 : 2 ^ 63 ≤ k) (h2 : k < 2 ^ 64) :
    i64wrap k = (k : Int) - 2 ^ 64 := by
  unfold i64wrap
  omega

instance {ε α : Type} [DecidableEq ε] [DecidableEq α] :
    DecidableEq (Except ε α) := fun a b =>
  match a, b with
  | .error e, .error e' =>
      if h : e = e' then .isTrue (by rw [h]) else .isFalse (by simp [h])
  | .error _, .ok _ => .isFalse (by simp)
  | .ok _, .error _ => .isFalse (by simp)
  | .ok a, .ok a' =>
      if h : a = a' then .isTrue (by rw [h]) else .isFalse (by simp [h])

/-- `seek` leaves the node with a zeroed window and `seekTarget` as the new
offset, everything else unchanged. -/
theorem ZipFile.seek_fst (z : ZipFile) (pos : SeekFromM) :
    (z.seek pos).1 =
      { z with buf_filled := 0, cursor := 0, seek_offset := z.seekTarget pos } := by
  cases pos <;>
    (simp only [ZipFile.seek, ZipFile.seekTarget]
     split <;> rfl)

/-- `seek` returns the stored offset, or the invalid-seek error when it is
negative. -/
theorem ZipFile.seek_snd (z : ZipFile) (pos : SeekFromM) :
    (z.seek pos).2 =
      if z.seekTarget pos < 0 then .error ZipFile.invalidSeekErr
      else .ok (z.seekTarget pos).toNat := by
  cases pos <;>
    (simp only [ZipFile.seek, ZipFile.seekTarget]
     split <;> rfl)

/-- What `applyEntries` leaves at key `k`: the listing's last successful
write to `k` if there is one, otherwise whatever the cache held before. -/
theorem applyEntries_fst_apply {ε α : Type} (w : ε → Option (String × α))
    (l : List (Except Unit ε)) (c : Cache α) (k : String) :
    (applyEntries w l c).1 k =
      match lastWrite w l k with
      | some v => some v
      | none => c k := by
  induction l generalizing c with
  | nil => rfl
  | cons e rest ih =>
      cases e with
      | error u => rfl
      | ok e =>
          cases hw : w e with
          | none =>
              simp only [applyEntries, lastWrite, hw, ih]
              cases lastWrite w rest k <;> rfl
          | some kv =>
              obtain ⟨k', v⟩ := kv
              simp only [applyEntries, lastWrite, hw, ih]
              cases lastWrite w rest k with
              | some u => rfl
              | none => by_cases hk : k = k' <;> simp [Cache.insert, hk]

/-- Whether `applyEntries` consumes the whole listing does not depend on the
starting cache. -/
theorem applyEntries_snd_const {ε α : Type} (w : ε → Option (String × α))
    (l : List (Except Unit ε)) :
    ∀ c c' : Cache α, (applyEntries w l c).2 = (applyEntries w l c').2 := by
  induction l with
  | nil => intro c c'; rfl
  | cons e rest ih =>
      intro c c'
      cases e with
      | error u => rfl
      | ok e =>
          cases hw : w e with
          | none =>
              simp only [applyEntries, hw]
              exact ih _ _
          | some kv =>
              obtain ⟨k, v⟩ := kv
              simp only [applyEntries, hw]
              exact ih _ _

/-- Re-processing a (deterministic) listing over its own result changes
nothing: every key it writes gets rewritten to the same final value. -/
theorem applyEntries_idem {ε α : Type} (w : ε → Option (String × α))
    (l : List (Except Unit ε)) (c : Cache α) :
    applyEntries w l (applyEntries w l c).1 = applyEntries w l c := by
  rw [Prod.ext_iff]
  constructor
  · funext k
    conv_lhs => rw [applyEntries_fst_apply]
    cases h : lastWrite w l k with
    | some v => rw [applyEntries_fst_apply, h]
    | none => rfl
  · exact applyEntries_snd_const w l _ _

/-- A `PhysicalDirectory` whose scan guard fails (already scanned, or the
path is not an existing directory) returns unchanged with `Ok` and no
backend listing call. -/
theorem scanP_no_guard (d : PhysicalDirectory) (os : OsDir)
    (h : (!d.scanned && os.dirExists) = false) :
    d.scan os = (d, true, 0) := by
  simp only [PhysicalDirectory.scan, h]
  rfl

/-- A `PhysicalDirectory` scan that enters the guard on a successful listing
applies the listing to the cache and records completion. -/
theorem scanP_guard_ok (d : PhysicalDirectory) (os : OsDir)
    (items : List (Except Unit PEntry))
    (hg : (!d.scanned && os.dirExists) = true) (hl : os.listing = .ok items) :
    d.scan os =
      ({ d with children := (applyEntries pEntryWrite items d.children).1,
                scanned := (applyEntries pEntryWrite items d.children).2 },
       (applyEntries pEntryWrite items d.children).2, 1) := by
  simp only [PhysicalDirectory.scan, hg, hl]
  rfl

/-- A `PhysicalDirectory` scan whose `fs::read_dir` fails propagates the
error, leaving the state (and in particular `scanned = false`) unchanged —
after one backend listing call. -/
theorem scanP_guard_err (d : PhysicalDirectory) (os : OsDir)
    (hg : (!d.scanned && os.dirExists) = true) (hl : os.listing = .error ()) :
    d.scan os = (d, false, 1) := by
  simp only [PhysicalDirectory.scan, hg, hl]
  rfl

/-- A `ZipDirectory` whose scan guard fails returns unchanged with `Ok` and
no archive enumeration. -/
theorem scanZ_no_guard (d : ZipDirectory) (ar : ArchiveState)
    (h : (!d.scanned && ar.dirExists) = false) :
    d.scan ar = (d, true, 0) := by
  simp only [ZipDirectory.scan, h]
  rfl

/-- A `ZipDirectory` scan that enters the guard applies the entry listing to
the cache and records completion. -/
theorem scanZ_guard (d : ZipDirectory) (ar : ArchiveState)
    (hg : (!d.scanned && ar.dirExists) = true) :
    d.scan ar =
      ({ d with children := (applyEntries zEntryWrite ar.entries d.children).1,
                scanned := (applyEntries zEntryWrite ar.entries d.children).2 },
       (applyEntries zEntryWrite ar.entries d.children).2, 1) := by
  simp only [ZipDirectory.scan, hg]
  rfl

/-- `close` re-establishes the window invariant. -/
theorem close_inv (f : PhysicalFile) (h : PFileInv f) :
    PFileInv f.close :=
  ⟨Nat.le.refl, Nat.zero_le _, h.2.2⟩

/-- `open` preserves the window invariant. -/
theorem openFile_inv (f : PhysicalFile) (h : PFileInv f) :
    PFileInv f.openFile := by
  by_cases hs : f.fileHandle.isSome <;>
    simp [PhysicalFile.openFile, hs, PhysicalFile.close]
  · exact ⟨Nat.le.refl, Nat.zero_le _, h.2.2⟩
  · exact h

/-- The open-and-size phase of `fill_buffer` preserves the invariant. -/
theorem ensureOpenSized_inv (f : PhysicalFile) (disk : List Nat)
    (h : PFileInv f) : PFileInv (f.ensureOpenSized disk) := by
  by_cases ho : f.is_open = true
  · simp only [PhysicalFile.ensureOpenSized, if_pos ho]
    exact h
  · simp only [PhysicalFile.ensureOpenSized]
    rw [if_neg ho]
    by_cases hc : (f.openFile).bufCap = 0
    · rw [if_pos hc]
      have hof := openFile_inv f h
      refine ⟨hof.1, ?_, ?_⟩
      · show f.openFile.buf_filled ≤ max f.openFile.bufCap disk.length
        exact le_trans hof.2.1 (le_max_left _ _)
      · show (List.replicate disk.length 0).length ≤
          max f.openFile.bufCap disk.length
        rw [List.length_replicate]
        exact le_max_right _ _
    · rw [if_neg hc]
      exact openFile_inv f h

/-- The read phase of `fill_buffer` preserves the invariant. -/
theorem fillFrom_inv (g : PhysicalFile) (disk : List Nat)
    (h : PFileInv g) : PFileInv (g.fillFrom disk) := by
  obtain ⟨h1, h2, h3⟩ := h
  cases hfh : g.fileHandle with
  | none =>
      simp only [PhysicalFile.fillFrom, hfh]
      exact ⟨h1, h2, h3⟩
  | some pos =>
      simp only [PhysicalFile.fillFrom, hfh]
      refine ⟨Nat.zero_le _, le_trans (Nat.min_le_left _ _) h3, ?_⟩
      show (PhysicalFile.overwritePrefix g.buffer (disk.drop pos)
        (min g.buffer.length (disk.length - pos))).length ≤ g.bufCap
      rw [overwritePrefix_length]
      · exact h3
      · exact Nat.min_le_left _ _
      · rw [List.length_drop]
        exact Nat.min_le_right _ _

/-- `fill_buffer` preserves the invariant on the physical backend. -/
theorem fill_buffer_inv (f : PhysicalFile) (disk : List Nat)
    (h : PFileInv f) : PFileInv (f.fill_buffer disk) :=
  fillFrom_inv _ disk (ensureOpenSized_inv f disk h)

/-- Serving bytes out of the window (`read`) only advances the cursor up to
`buf_filled`. -/
theorem advance_cursor_invP (g : PhysicalFile) (k : Nat) (h : PFileInv g) :
    PFileInv { g with cursor := g.cursor + min (g.buf_filled - g.cursor) k } := by
  obtain ⟨h1, h2, h3⟩ := h
  refine ⟨?_, h2, h3⟩
  show g.cursor + min (g.buf_filled - g.cursor) k ≤ g.buf_filled
  omega

/-- One `File`-contract operation preserves the invariant on the physical
backend. -/
theorem stepP_inv (s : PhysicalFile × List Nat) (op : POp)
    (h : PFileInv s.1) : PFileInv (stepP s op).1 := by
  obtain ⟨f, disk⟩ := s
  cases op with
  | opOpen => exact openFile_inv f h
  | opClose => exact close_inv f h
  | opRead k =>
      have hg : PFileInv (if f.buf_filled ≤ f.cursor
          then f.fill_buffer disk else f) := by
        split
        · exact fill_buffer_inv f disk h
        · exact h
      exact advance_cursor_invP _ k hg
  | opFillBuf =>
      show PFileInv (if f.buf_filled ≤ f.cursor
        then f.fill_buffer disk else f)
      split
      · exact fill_buffer_inv f disk h
      · exact h
  | opConsume amt =>
      exact ⟨Nat.min_le_right _ _, h.2.1, h.2.2⟩
  | opWrite buf =>
      refine ⟨Nat.le.refl, Nat.zero_le _, ?_⟩
      show (PhysicalFile.overwritePrefix f.buffer buf
        (min f.buffer.length buf.length)).length ≤ f.bufCap
      rw [overwritePrefix_length]
      · exact h.2.2
      · exact Nat.min_le_left _ _
      · exact Nat.min_le_right _ _
  | opFlush =>
      exact ⟨(openFile_inv f h).1, (openFile_inv f h).2.1,
        (openFile_inv f h).2.2⟩
  | opSeek newPos =>
      cases hfh : f.fileHandle with
      | none =>
          show PFileInv (f.seekOs newPos)
          simp only [PhysicalFile.seekOs, hfh]
          exact h
      | some pos =>
          show PFileInv (f.seekOs newPos)
          simp only [PhysicalFile.seekOs, hfh]
          exact ⟨h.1, h.2.1, h.2.2⟩
  | opSetBufferSize size =>
      refine ⟨h.1, le_trans h.2.1 (le_max_left _ _), ?_⟩
      show (f.buffer.take size ++
        List.replicate (size - f.buffer.length) 0).length ≤ max f.bufCap size
      rw [List.length_append, List.length_take, List.length_replicate]
      have := h.2.2
      omega

/-- Invariant preservation over whole physical operation sequences. -/
theorem runP_inv (ops : List POp) :
    ∀ s : PhysicalFile × List Nat, PFileInv s.1 → PFileInv (runP s ops).1 := by
  induction ops with
  | nil => intro s h; exact h
  | cons op rest ih =>
      intro s h
      simp only [runP, List.foldl_cons]
      exact ih (stepP s op) (stepP_inv s op h)

/-- `fill_buffer` preserves the invariant on the archive backend. -/
theorem zfill_buffer_inv (z : ZipFile) (h : ZFileInv z) :
    ZFileInv z.fill_buffer := by
  obtain ⟨h1, h2, h3⟩ := h
  by_cases hneg : z.seek_offset < 0 <;>
    simp only [ZipFile.fill_buffer, hneg, if_true, if_false, ite_true,
      ite_false]
  · exact ⟨h1, h2, h3⟩
  · refine ⟨Nat.zero_le _, le_trans (Nat.min_le_left _ _) h3, ?_⟩
    rw [overwritePrefix_length]
    · exact h3
    · exact Nat.min_le_left _ _
    · rw [List.length_drop]
      exact Nat.min_le_right _ _

/-- Serving bytes out of the window (`read`) only advances the cursor up to
`buf_filled` on the archive backend. -/
theorem advance_cursor_invZ (g : ZipFile) (k : Nat) (h : ZFileInv g) :
    ZFileInv { g with cursor := g.cursor + min (g.buf_filled - g.cursor) k } := by
  obtain ⟨h1, h2, h3⟩ := h
  refine ⟨?_, h2, h3⟩
  show g.cursor + min (g.buf_filled - g.cursor) k ≤ g.buf_filled
  omega

/-- One `File`-contract operation preserves the invariant on the archive
backend. -/
theorem stepZ_inv (z : ZipFile) (op : ZOp) (h : ZFileInv z) :
    ZFileInv (stepZ z op) := by
  cases op with
  | opOpen => exact h
  | opClose => exact h
  | opRead k =>
      have hg : ZFileInv (if z.buf_filled ≤ z.cursor
          then z.fill_buffer else z) := by
        split
        · exact zfill_buffer_inv z h
        · exact h
      exact advance_cursor_invZ _ k hg
  | opFillBuf =>
      show ZFileInv (if z.buf_filled ≤ z.cursor then z.fill_buffer else z)
      split
      · exact zfill_buffer_inv z h
      · exact h
  | opConsume amt =>
      exact ⟨Nat.min_le_right _ _, h.2.1, h.2.2⟩
  | opSeek pos =>
      simp only [stepZ]
      rw [ZipFile.seek_fst]
      exact ⟨Nat.le.refl, Nat.zero_le _, h.2.2⟩
  | opSetBufferSize size =>
      refine ⟨h.1, le_trans h.2.1 (le_max_left _ _), ?_⟩
      simp only [stepZ, ZipFile.set_buffer_size, List.length_append,
        List.length_take, List.length_replicate]
      omega

/-- Invariant preservation over whole archive operation sequences. -/
theorem runZ_inv (ops : List ZOp) :
    ∀ z : ZipFile, ZFileInv z → ZFileInv (runZ z ops) := by
  induction ops with
  | nil => intro z h; exact h
  | cons op rest ih =>
      intro z h
      simp only [runZ, List.foldl_cons]
      exact ih (stepZ z op) (stepZ_inv z op h)

/-! ## The claims -/

/-- C1 (code bug): "For every node N (file or directory, physical or archive
backend) that has a parent, `get_full_path(N)` equals the parent's full path
joined with N's own name; for a parentless root it equals the root's own
name."  This holds for `PhysicalDirectory`, `PhysicalFile` and
`ZipDirectory`, but `ZipFile::get_full_path` (`zip.rs`, lines 314–316)
returns the parent's full path *without* joining the entry's own name,
contradicting the trait documentation "Returns the full path to the file"
(`lib.rs`, line 48) and the spec's path-coherence invariant: on the entry
`a.txt` of the archive `/tmp/ar.zip` it yields `/tmp/ar.zip` instead of
`/tmp/ar.zip/a.txt`. -/
theorem claim_C1 :
    Node.get_full_path exampleZipEntry = "/tmp/ar.zip" ∧
    Node.spec_full_path exampleZipEntry = "/tmp/ar.zip/a.txt" ∧
    Node.get_full_path exampleZipEntry ≠ Node.spec_full_path exampleZipEntry ∧
    (∀ name parent,
        Node.get_full_path (.physDir name parent) =
          pathJoin (Node.get_full_path parent) name) ∧
    (∀ name parent,
        Node.get_full_path (.physFile name parent) =
          pathJoin (Node.get_full_path parent) name) ∧
    (∀ name parent,
        Node.get_full_path (.zipDir name parent) =
          pathJoin (Node.get_full_path parent) name) ∧
    (∀ name parent,
        Node.get_full_path (.zipFile name parent) =
          Node.get_full_path parent) :=
  ⟨by decide, by decide, by decide,
   fun _ _ => rfl, fun _ _ => rfl, fun _ _ => rfl, fun _ _ => rfl⟩

/-- C2 (code bug): "writing B to F (|B| ≤ S), then flushing, closing,
reopening, and reading yields exactly the bytes B."  On the code the round
trip yields nothing: `PhysicalFile::new` allocates the buffer with
`Vec::with_capacity(S)`, whose *length* is 0, so `write` copies
`min(buffer.len(), |B|) = 0` bytes (`physical.rs`, line 225) — here shown for
`S = 1`, `B = [42]` — and the subsequent read returns no bytes.  (The model
even grants `flush` a writable handle; in the source `flush` opens the file
with the read-only `fs::File::open`, which makes the round trip fail at the
OS level as well.) -/
theorem claim_C2 :
    (PhysicalFile.write (PhysicalFile.new 1) [42]).2 = 0 ∧
    roundTrip 1 [42] = [] ∧
    roundTrip 1 [42] ≠ [42] := by
  decide

/-- C3 (confirmed): `PhysicalFile`'s `write` resets `buf_filled` and
`cursor` to 0, copies exactly `min(buffer.length, |B|)` bytes of the input
into the buffer (leaving the rest of the buffer as it was), and returns that
count; in particular a file created with buffer size 0 has an empty buffer,
so writing any `B` accepts and returns zero bytes. -/
theorem claim_C3 :
    (∀ (f : PhysicalFile) (B : List Nat),
        (f.write B).2 = min f.buffer.length B.length ∧
        (f.write B).1.buf_filled = 0 ∧
        (f.write B).1.cursor = 0 ∧
        (f.write B).1.buffer =
          B.take (min f.buffer.length B.length) ++
            f.buffer.drop (min f.buffer.length B.length) ∧
        (f.write B).1.buffer.length = f.buffer.length ∧
        (f.buffer.length = 0 → (f.write B).2 = 0)) ∧
    (∀ B : List Nat, ((PhysicalFile.new 0).write B).2 = 0) := by
  constructor
  · intro f B
    refine ⟨rfl, rfl, rfl, rfl, ?_, ?_⟩
    · exact overwritePrefix_length _ _ _ (Nat.min_le_left _ _)
        (Nat.min_le_right _ _)
    · intro h
      simp [PhysicalFile.write, h]
  · intro B
    simp [PhysicalFile.write, PhysicalFile.new]

/-- Witness for C3 at a concrete input: a file created with buffer size 3
still has buffer length 0, and writing `[7, 8]` returns 0 bytes. -/
theorem claim_C3_witness :
    (PhysicalFile.new 3).buffer.length = 0 ∧
    ((PhysicalFile.new 3).write [7, 8]).2 = 0 :=
  ⟨by decide, (claim_C3.1 (PhysicalFile.new 3) [7, 8]).2.2.2.2.2 (by decide)⟩

/-- C5 (code bug): "every operation that is meaningless for its backend …
returns an explicit reported unsupported-operation error result to the
caller and never aborts the process."  In the source every one of these
calls — `write`/`flush` on a `ZipFile` (`zip.rs`, lines 267–275), `rename`
on a `ZipFile` (`zip.rs`, lines 306–308), `new_file`/`new_dir` on a
`ZipDirectory` (`zip.rs`, lines 181–187) and the default `Directory::scan`
(`lib.rs`, line 90) — is an unconditional `unimplemented!()`, which panics:
it never returns any value, let alone an error result, to the caller. -/
theorem claim_C5 :
    (∀ buf, ZipFileCalls.write buf = .panics) ∧
    ZipFileCalls.flush = .panics ∧
    (∀ name, ZipFileCalls.rename name = .panics) ∧
    (∀ name buffer_size, ZipDirectoryCalls.new_file name buffer_size = .panics) ∧
    (∀ name, ZipDirectoryCalls.new_dir name = .panics) ∧
    DirectoryCalls.scan_default = .panics ∧
    (∀ buf (e : Except IoErr Nat), ZipFileCalls.write buf ≠ .ret e) :=
  ⟨fun _ => rfl, rfl, fun _ => rfl, fun _ _ => rfl, fun _ => rfl, rfl,
   fun _ _ h => CallResult.noConfusion h⟩

/-- C9 (code bug): "for every file, `size` returns a result value".  The
archive backend does return the entry's recorded decompressed length from
the central directory, independently of any buffered bytes; but
`PhysicalFile::size` (`physical.rs`, lines 259–261) is `todo!()`, which
panics instead of computing and returning the on-disk byte length. -/
theorem claim_C9 :
    PhysicalFileCalls.size = .panics ∧
    (∀ e : Except FsError Nat, PhysicalFileCalls.size ≠ .ret e) ∧
    (∀ z : ZipFile, z.size = .ret (.ok z.entryContent.length)) ∧
    (∀ (buffer : List Nat) (bufCap buf_filled cursor : Nat)
        (seek_offset : Int) (entryContent : List Nat),
        ZipFile.size
          ⟨buffer, bufCap, buf_filled, cursor, seek_offset, entryContent⟩ =
          .ret (.ok entryContent.length)) :=
  ⟨rfl, fun _ h => CallResult.noConfusion h, fun _ => rfl,
   fun _ _ _ _ _ _ => rfl⟩

/-- C7 (confirmed): on both backends, `get_child` on a name absent from the
directory's child cache fails — it does not panic — with the
`FileNotPresent` error carrying exactly the directory's full path and the
missing name (`physical.rs`, lines 159–165; `zip.rs`, lines 168–175). -/
theorem claim_C7 :
    (∀ (d : PhysicalDirectory) (name : String), d.children name = none →
        d.get_child name =
          .error (.FileNotPresent d.node.get_full_path name)) ∧
    (∀ (d : ZipDirectory) (name : String), d.children name = none →
        d.get_child name =
          .error (.FileNotPresent d.node.get_full_path name)) := by
  constructor
  · intro d name h
    simp [PhysicalDirectory.get_child, h]
  · intro d name h
    simp [ZipDirectory.get_child, h]

/-- Witness for C7 at the spec's example: a directory with full path
`/tmp/root` and no children fails on `missing.txt` with
`NotPresent("/tmp/root", "missing.txt")`. -/
theorem claim_C7_witness :
    (PhysicalDirectory.new (Node.physDirRoot "/tmp/root")).children
        "missing.txt" = none ∧
    (PhysicalDirectory.new (Node.physDirRoot "/tmp/root")).get_child
        "missing.txt" =
      .error (.FileNotPresent "/tmp/root" "missing.txt") :=
  ⟨rfl,
   claim_C7.1 (PhysicalDirectory.new (Node.physDirRoot "/tmp/root"))
     "missing.txt" rfl⟩

/-- C4 counterexample: the claim says `seek(Start(k))` yields `k`, but for
`k = 2^63` (a legal `u64` argument) the cast `pos as i64` (`zip.rs`, line
248) wraps to `i64::MIN`, so the resulting offset is negative and `seek`
fails with the invalid-seek error instead of returning `2^63`. -/
theorem claim_C4_counterexample :
    (ZipFile.seek exampleZipFile (.start (2 ^ 63))).2 =
      .error ZipFile.invalidSeekErr ∧
    (ZipFile.seek exampleZipFile (.start (2 ^ 63))).2 ≠ .ok (2 ^ 63) := by
  constructor
  · rfl
  · intro h
    exact Except.noConfusion h

/-- C4 as amended: for an archive entry of decompressed size `L`, `seek`
only updates the logical `seek_offset` — leaving the buffer contents and the
entry untouched while invalidating the buffered window (`buf_filled` and
`cursor` become 0) — with the target absolute for `Start(k)` (result `k`,
*provided `k < 2^63`; a larger `u64` wraps through the `as i64` cast to a
negative offset and fails with the invalid-seek error*), entry-size-relative
for `End(p)` (result `L + p`, so `End(0)` yields `L`), and relative for
`Current(p)` (result `current + p`), all within 64-bit signed range; whenever
the resulting offset is negative — e.g. `Current(-(L+1))` from offset `L` —
`seek` fails with the invalid-seek error. -/
theorem claim_C4 :
    (∀ (z : ZipFile) (pos : SeekFromM),
        (z.seek pos).1.buf_filled = 0 ∧ (z.seek pos).1.cursor = 0 ∧
        (z.seek pos).1.buffer = z.buffer ∧
        (z.seek pos).1.entryContent = z.entryContent) ∧
    (∀ (z : ZipFile) (k : Nat), k < 2 ^ 63 →
        (z.seek (.start k)).1.seek_offset = k ∧
        (z.seek (.start k)).2 = .ok k) ∧
    (∀ (z : ZipFile) (k : Nat), 2 ^ 63 ≤ k → k < 2 ^ 64 →
        (z.seek (.start k)).2 = .error ZipFile.invalidSeekErr) ∧
    (∀ z : ZipFile, z.entryContent.length < 2 ^ 63 →
        (z.seek (.fromEnd 0)).2 = .ok z.entryContent.length) ∧
    (∀ (z : ZipFile) (p : Int), z.entryContent.length < 2 ^ 63 →
        -(2 ^ 63) ≤ (z.entryContent.length : Int) + p →
        (z.entryContent.length : Int) + p < 2 ^ 63 →
        (z.seek (.fromEnd p)).1.seek_offset =
          (z.entryContent.length : Int) + p ∧
        ((z.entryContent.length : Int) + p < 0 →
            (z.seek (.fromEnd p)).2 = .error ZipFile.invalidSeekErr) ∧
        (0 ≤ (z.entryContent.length : Int) + p →
            (z.seek (.fromEnd p)).2 =
              .ok ((z.entryContent.length : Int) + p).toNat)) ∧
    (∀ (z : ZipFile) (p : Int),
        -(2 ^ 63) ≤ z.seek_offset + p → z.seek_offset + p < 2 ^ 63 →
        (z.seek (.current p)).1.seek_offset = z.seek_offset + p ∧
        (z.seek_offset + p < 0 →
            (z.seek (.current p)).2 = .error ZipFile.invalidSeekErr) ∧
        (0 ≤ z.seek_offset + p →
            (z.seek (.current p)).2 = .ok (z.seek_offset + p).toNat)) ∧
    (∀ z : ZipFile, z.seek_offset = (z.entryContent.length : Int) →
        (z.entryContent.length : Int) < 2 ^ 63 →
        (z.seek (.current (-((z.entryContent.length : Int) + 1)))).2 =
          .error ZipFile.invalidSeekErr) := by
  refine ⟨?_, ?_, ?_, ?_, ?_, ?_, ?_⟩
  · intro z pos
    rw [ZipFile.seek_fst]
    exact ⟨rfl, rfl, rfl, rfl⟩
  · intro z k hk
    have hw : z.seekTarget (.start k) = (k : Int) :=
      i64wrap_of_range _ (by omega) (by omega)
    rw [ZipFile.seek_fst, ZipFile.seek_snd, hw,
      if_neg (by omega : ¬ ((k : Int) < 0))]
    exact ⟨rfl, by simp⟩
  · intro z k hk1 hk2
    have hw : z.seekTarget (.start k) = (k : Int) - 2 ^ 64 :=
      i64wrap_of_hi _ hk1 hk2
    rw [ZipFile.seek_snd, hw, if_pos (by omega)]
  · intro z hL
    have hin : i64wrap (z.entryContent.length : Int) =
        (z.entryContent.length : Int) :=
      i64wrap_of_range _ (by omega) (by omega)
    have hw : z.seekTarget (.fromEnd 0) = (z.entryContent.length : Int) := by
      simp only [ZipFile.seekTarget]
      rw [hin, add_zero, hin]
    rw [ZipFile.seek_snd, hw, if_neg (by omega)]
    simp
  · intro z p hL h1 h2
    have hin : i64wrap (z.entryContent.length : Int) =
        (z.entryContent.length : Int) :=
      i64wrap_of_range _ (by omega) (by omega)
    have hw : z.seekTarget (.fromEnd p) = (z.entryContent.length : Int) + p := by
      simp only [ZipFile.seekTarget]
      rw [hin, i64wrap_of_range _ h1 h2]
    refine ⟨?_, ?_, ?_⟩
    · rw [ZipFile.seek_fst, hw]
    · intro hneg
      rw [ZipFile.seek_snd, hw, if_pos hneg]
    · intro hpos
      rw [ZipFile.seek_snd, hw, if_neg (by omega)]
  · intro z p h1 h2
    have hw : z.seekTarget (.current p) = z.seek_offset + p :=
      i64wrap_of_range _ h1 h2
    refine ⟨?_, ?_, ?_⟩
    · rw [ZipFile.seek_fst, hw]
    · intro hneg
      rw [ZipFile.seek_snd, hw, if_pos hneg]
    · intro hpos
      rw [ZipFile.seek_snd, hw, if_neg (by omega)]
  · intro z hoff hL
    have hw : z.seekTarget (.current (-((z.entryContent.length : Int) + 1))) =
        -1 := by
      simp only [ZipFile.seekTarget]
      rw [hoff, i64wrap_of_range _ (by omega) (by omega)]
      omega
    rw [ZipFile.seek_snd, hw, if_pos (by omega)]

/-- Witness for C4 at a concrete input: on an entry of decompressed size 3,
`seek(End(0))` yields offset 3. -/
theorem claim_C4_witness :
    exampleZipFile.entryContent.length < 2 ^ 63 ∧
    (ZipFile.seek exampleZipFile (.fromEnd 0)).2 =
      .ok exampleZipFile.entryContent.length :=
  ⟨by decide, claim_C4.2.2.2.1 exampleZipFile (by decide)⟩

/-- C6 counterexample: on a directory whose backend listing fails (the
directory exists but `fs::read_dir` errors, e.g. it is unreadable), the
failed `scan` leaves `scanned = false` (`physical.rs`, lines 58–72: the `?`
returns before `scanned` is set), so a second `scan` invokes the backend
listing again — two invocations, where the claim allows at most one per
directory. -/
theorem claim_C6_counterexample :
    (exampleScanDir.scan exampleFailingOs).2.2 +
        ((exampleScanDir.scan exampleFailingOs).1.scan exampleFailingOs).2.2 =
      2 ∧
    ¬((exampleScanDir.scan exampleFailingOs).2.2 +
        ((exampleScanDir.scan exampleFailingOs).1.scan exampleFailingOs).2.2 ≤
          1) := by
  constructor
  · rfl
  · intro h
    have h2 : (exampleScanDir.scan exampleFailingOs).2.2 +
        ((exampleScanDir.scan exampleFailingOs).1.scan exampleFailingOs).2.2 =
          2 := rfl
    omega

/-- C6 as amended: for every directory, on either backend, calling `scan`
twice leaves the whole directory state — in particular its child cache —
identical to calling it once; once `scanned` is true a further `scan` call
changes no state and makes no backend call; and the backend listing is
invoked at most once per directory *provided the scan call succeeds* (a scan
that fails leaves `scanned` false and a later `scan` consults the backend
again — see the counterexample). -/
theorem claim_C6 :
    (∀ (d : PhysicalDirectory) (os : OsDir),
        ((d.scan os).1.scan os).1 = (d.scan os).1) ∧
    (∀ (d : PhysicalDirectory) (os : OsDir),
        ((d.scan os).1.scan os).1.children = (d.scan os).1.children) ∧
    (∀ (d : PhysicalDirectory) (os : OsDir), d.scanned = true →
        d.scan os = (d, true, 0)) ∧
    (∀ (d : PhysicalDirectory) (os : OsDir), (d.scan os).2.1 = true →
        (d.scan os).2.2 + ((d.scan os).1.scan os).2.2 ≤ 1) ∧
    (∀ (d : ZipDirectory) (ar : ArchiveState),
        ((d.scan ar).1.scan ar).1 = (d.scan ar).1) ∧
    (∀ (d : ZipDirectory) (ar : ArchiveState), d.scanned = true →
        d.scan ar = (d, true, 0)) ∧
    (∀ (d : ZipDirectory) (ar : ArchiveState), (d.scan ar).2.1 = true →
        (d.scan ar).2.2 + ((d.scan ar).1.scan ar).2.2 ≤ 1) := by
  have hP : ∀ (d : PhysicalDirectory) (os : OsDir),
      ((d.scan os).1.scan os).1 = (d.scan os).1 := by
    intro d os
    cases hgb : (!d.scanned && os.dirExists) with
    | false =>
        rw [scanP_no_guard d os hgb]
        exact congrArg Prod.fst (scanP_no_guard d os hgb)
    | true =>
        cases hl : os.listing with
        | error u =>
            cases u
            rw [scanP_guard_err d os hgb hl]
            exact congrArg Prod.fst (scanP_guard_err d os hgb hl)
        | ok items =>
            rw [scanP_guard_ok d os items hgb hl]
            cases hA2 : (applyEntries pEntryWrite items d.children).2 with
            | true =>
                rw [scanP_no_guard _ os (by simp [hA2])]
            | false =>
                have hde : os.dirExists = true := by
                  simp only [Bool.and_eq_true] at hgb
                  exact hgb.2
                rw [scanP_guard_ok _ os items (by simp [hA2, hde]) hl]
                dsimp only
                rw [applyEntries_idem, hA2]
  have hZ : ∀ (d : ZipDirectory) (ar : ArchiveState),
      ((d.scan ar).1.scan ar).1 = (d.scan ar).1 := by
    intro d ar
    cases hgb : (!d.scanned && ar.dirExists) with
    | false =>
        rw [scanZ_no_guard d ar hgb]
        exact congrArg Prod.fst (scanZ_no_guard d ar hgb)
    | true =>
        rw [scanZ_guard d ar hgb]
        cases hA2 : (applyEntries zEntryWrite ar.entries d.children).2 with
        | true =>
            rw [scanZ_no_guard _ ar (by simp [hA2])]
        | false =>
            have hde : ar.dirExists = true := by
              simp only [Bool.and_eq_true] at hgb
              exact hgb.2
            rw [scanZ_guard _ ar (by simp [hA2, hde])]
            dsimp only
            rw [applyEntries_idem, hA2]
  refine ⟨hP, fun d os => congrArg PhysicalDirectory.children (hP d os),
    ?_, ?_, hZ, ?_, ?_⟩
  · intro d os h
    exact scanP_no_guard d os (by simp [h])
  · intro d os h
    cases hgb : (!d.scanned && os.dirExists) with
    | false =>
        rw [scanP_no_guard d os hgb]
        dsimp only
        rw [scanP_no_guard d os hgb]
        dsimp only
        omega
    | true =>
        cases hl : os.listing with
        | error u =>
            cases u
            rw [scanP_guard_err d os hgb hl] at h
            exact absurd h (by simp)
        | ok items =>
            rw [scanP_guard_ok d os items hgb hl] at h ⊢
            dsimp only at h ⊢
            rw [scanP_no_guard _ os (by simp [h])]
            dsimp only
            omega
  · intro d ar h
    exact scanZ_no_guard d ar (by simp [h])
  · intro d ar h
    cases hgb : (!d.scanned && ar.dirExists) with
    | false =>
        rw [scanZ_no_guard d ar hgb]
        dsimp only
        rw [scanZ_no_guard d ar hgb]
        dsimp only
        omega
    | true =>
        rw [scanZ_guard d ar hgb] at h ⊢
        dsimp only at h ⊢
        rw [scanZ_no_guard _ ar (by simp [h])]
        dsimp only
        omega

/-- Witness for C6 at a concrete input: a fresh directory over an existing,
successfully listable backend directory; the first scan succeeds and the
two scans together invoke the backend listing at most once. -/
theorem claim_C6_witness :
    (exampleScanDir.scan exampleOkOs).2.1 = true ∧
    (exampleScanDir.scan exampleOkOs).2.2 +
        ((exampleScanDir.scan exampleOkOs).1.scan exampleOkOs).2.2 ≤ 1 :=
  ⟨rfl, claim_C6.2.2.2.1 exampleScanDir exampleOkOs rfl⟩

/-- C8 (confirmed): starting from any freshly constructed file node —
physical (`PhysicalFile::new`, any buffer size, any on-disk content) or
archive (`ZipFile::new`, any buffer size, any entry content) — every
sequence of `File`-contract operations (open, close, read, fill, consume,
write, flush, seek, set_buffer_size) preserves the window invariant
`cursor ≤ buf_filled ≤ buffer.capacity()` (the `0 ≤ cursor` part holds by
the `Nat` type of `cursor`), together with the `Vec` fact
`buffer.len() ≤ buffer.capacity()` that sustains it. -/
theorem claim_C8 :
    (∀ (S : Nat) (disk : List Nat) (ops : List POp),
        PFileInv (runP (PhysicalFile.new S, disk) ops).1) ∧
    (∀ (buffer_size : Nat) (content : List Nat) (ops : List ZOp),
        ZFileInv (runZ (ZipFile.new buffer_size content) ops)) :=
  ⟨fun S disk ops =>
      runP_inv ops (PhysicalFile.new S, disk)
        ⟨Nat.le.refl, Nat.zero_le _, Nat.zero_le _⟩,
   fun buffer_size content ops =>
      runZ_inv ops (ZipFile.new buffer_size content)
        ⟨Nat.le.refl, Nat.zero_le _, Nat.zero_le _⟩⟩

/-- C10 (confirmed): a freshly constructed directory on either backend has
an empty child cache and `scanned = false`; since `get_child` and
`has_child` consult only the cache (they take no backend input at all —
compare their definitions), before any `scan`/`get_children` call
`get_child` fails with `FileNotPresent` and `has_child` answers `Ok(false)`
for *every* name, whatever the backend actually contains. -/
theorem claim_C10 :
    (∀ (node : Node) (name : String),
        (PhysicalDirectory.new node).get_child name =
          .error (.FileNotPresent node.get_full_path name)) ∧
    (∀ (node : Node) (name : String),
        (PhysicalDirectory.new node).has_child name = .ok false) ∧
    (∀ (node : Node) (name : String),
        (ZipDirectory.new node).get_child name =
          .error (.FileNotPresent node.get_full_path name)) ∧
    (∀ (node : Node) (name : String),
        (ZipDirectory.new node).has_child name = .ok false) :=
  ⟨fun _ _ => rfl, fun _ _ => rfl, fun _ _ => rfl, fun _ _ => rfl⟩

end Fsa
